import Mathlib

/-!
A shallow embedding of the order-placement core of the School Merchandise
Store backend (`src/main.py` together with the document shapes of
`src/schemas.py`).

Modelling conventions:
* Monetary `float` arithmetic is modelled exactly by rationals `ℚ`; every
  arithmetic step of the code is mirrored one-for-one (the accumulating
  `sub_total`/`embroidery_total` loop is an explicit accumulator recursion).
* The MongoDB `merchandiseproduct` collection is a list of documents.  A
  document is schemaless, so every field read with `doc.get(key, default)`
  is an `Option` here and the default becomes `Option.getD`.
* `ObjectId(s)`/`str(doc["_id"])` are modelled as the identity on the hex
  string, and `ObjectId.is_valid` as the syntactic 24-hex-characters check.
* The Python `dict` `products_map` keyed by id string is modelled by the
  list of documents inserted into it: its size is the number of distinct
  keys and lookup returns the last inserted document for a key.
* `raise HTTPException` is an `Except.error`; persistence
  (`create_document("order", order)`) appends to the store's `orders`
  list, and each error path returns the store unchanged, exactly as the
  exception aborts the handler before the `create_document` call.
-/

/-- A document of the `merchandiseproduct` collection.  `id` is the string
rendering of the Mongo `_id`.  Fields that `create_order` reads with
`doc.get(key, default)` are optional. -/
structure ProductDoc where
  id : String
  title : Option String := none
  category : Option String := none
  description : Option String := none
  base_price : Option ℚ := none
  colors : List String := []
  images : List String := []
  in_stock : Bool := true
  deriving DecidableEq, Repr

/-- `schemas.OrderItem`: a persisted order line item. -/
structure OrderItem where
  product_id : String
  title : String
  category : String
  color : String
  quantity : Int
  unit_price : ℚ
  embroidery_text : Option String
  embroidery_fee : ℚ
  line_total : ℚ
  deriving DecidableEq, Repr

/-- `schemas.Order`: a persisted order document. -/
structure Order where
  customer_name : String
  customer_email : String
  items : List OrderItem
  sub_total : ℚ
  embroidery_total : ℚ
  grand_total : ℚ
  notes : Option String
  deriving DecidableEq, Repr

/-- `main.CreateOrderItem`: one requested line of an order request. -/
structure CreateOrderItem where
  product_id : String
  color : String
  quantity : Int
  embroidery_text : Option String := none
  deriving DecidableEq, Repr

/-- `main.CreateOrder`: the request body of `POST /api/orders`. -/
structure CreateOrder where
  customer_name : String
  customer_email : String
  items : List CreateOrderItem
  notes : Option String := none
  deriving DecidableEq, Repr

/-- The document store visible to `create_order`: the
`merchandiseproduct` collection and the `order` collection. -/
structure Store where
  products : List ProductDoc
  orders : List Order
  deriving DecidableEq, Repr

/-- An aborted request: `http status detail` is `raise HTTPException`;
`keyError k` is the uncaught `KeyError` a failed `products_map[k]`
subscript would raise. -/
inductive ApiError where
  | http (status : Nat) (detail : String)
  | keyError (key : String)
  deriving DecidableEq, Repr

/-- The successful response of `POST /api/orders`: status code 201 (from
the route decorator), the persisted order document, and the
`{"id": ..., "grand_total": ...}` body's grand total. -/
structure OrderResponse where
  status : Nat
  order : Order
  grand_total : ℚ
  deriving DecidableEq, Repr

/-- Hexadecimal digit check, as `bson` accepts for a 24-character id. -/
def isHexChar (c : Char) : Bool :=
  c.isDigit || (('a' ≤ c && c ≤ 'f') || ('A' ≤ c && c ≤ 'F'))

/-- `bson.ObjectId.is_valid` on a string: exactly 24 hex characters. -/
def ObjectId.is_valid (s : String) : Bool :=
  s.length == 24 && s.data.all isHexChar

/-- The hardcoded palette of `create_order` (`main.py` line 114). -/
def allowed_colors : List String := ["green", "black", "yellow", "white"]

/-- `main.EMBROIDERY_FEE_PER_ITEM = 8.0`. -/
def EMBROIDERY_FEE_PER_ITEM : ℚ := 8

/-- Python `str.strip()`: drop leading and trailing whitespace. -/
def pyStrip (s : String) : String :=
  ⟨((s.data.dropWhile Char.isWhitespace).reverse.dropWhile
      Char.isWhitespace).reverse⟩

/-- Truthiness of `it.embroidery_text and it.embroidery_text.strip()`:
the text is present, non-empty, and non-blank after stripping. -/
def hasEmbroidery : Option String → Bool
  | none => false
  | some s => (!(s == "")) && (!(pyStrip s == ""))

/-- The first validation loop of `create_order` (`main.py` lines
115-119): per item, in request order, color membership first, then
`quantity >= 1`; the first failure raises. -/
def validateItems : List CreateOrderItem → Except String Unit
  | [] => .ok ()
  | it :: rest =>
    if ¬ allowed_colors.contains it.color then
      .error ("Invalid color: " ++ it.color)
    else if it.quantity < 1 then
      .error "Quantity must be >= 1"
    else
      validateItems rest

/-- `ids = [ObjectId(i.product_id) for i in payload.items if
ObjectId.is_valid(i.product_id)]` (`main.py` line 122). -/
def requestIds (items : List CreateOrderItem) : List String :=
  items.filterMap (fun i =>
    if ObjectId.is_valid i.product_id then some i.product_id else none)

/-- The documents returned by
`db["merchandiseproduct"].find({"_id": {"$in": ids}})`: each stored
document whose id is among `ids`, once, in collection order. -/
def findProducts (products : List ProductDoc) (ids : List String) :
    List ProductDoc :=
  products.filter (fun d => ids.contains d.id)

/-- `len(products_map)`: the number of distinct keys inserted. -/
def mapSize (products_map : List ProductDoc) : Nat :=
  (products_map.map (fun d => d.id)).dedup.length

/-- `products_map[k]` after inserting the documents in order with
overwrite-on-collision: the last document whose id is `k`. -/
def mapLookup (products_map : List ProductDoc) (k : String) :
    Option ProductDoc :=
  match products_map with
  | [] => none
  | d :: rest =>
    match mapLookup rest k with
    | some r => some r
    | none => if d.id == k then some d else none

/-- The `OrderItem(...)` constructed for one requested item (`main.py`
lines 144-156). -/
def mkOrderItem (it : CreateOrderItem) (p : ProductDoc)
    (unit embroidery_fee line_total : ℚ) : OrderItem :=
  { product_id := it.product_id
    title := p.title.getD ""
    category := p.category.getD ""
    color := it.color
    quantity := it.quantity
    unit_price := unit
    embroidery_text := it.embroidery_text
    embroidery_fee := embroidery_fee
    line_total := line_total }

/-- The totals loop of `create_order` (`main.py` lines 137-156):
`order_items`, `sub_total` and `embroidery_total` are the accumulators. -/
def orderLoop (products_map : List ProductDoc) :
    List CreateOrderItem → List OrderItem → ℚ → ℚ →
    Except ApiError (List OrderItem × ℚ × ℚ)
  | [], order_items, sub_total, embroidery_total =>
    .ok (order_items, sub_total, embroidery_total)
  | it :: rest, order_items, sub_total, embroidery_total =>
    match mapLookup products_map it.product_id with
    | none => .error (.keyError it.product_id)
    | some p =>
      let unit : ℚ := p.base_price.getD 0
      let embroidery_fee : ℚ :=
        if hasEmbroidery it.embroidery_text then EMBROIDERY_FEE_PER_ITEM else 0
      let line_total : ℚ := (unit + embroidery_fee) * (it.quantity : ℚ)
      orderLoop products_map rest
        (order_items ++ [mkOrderItem it p unit embroidery_fee line_total])
        (sub_total + unit * (it.quantity : ℚ))
        (embroidery_total + embroidery_fee * (it.quantity : ℚ))

/-- `POST /api/orders` (`main.py` lines 111-171).  Returns the store
after the request (the `order` collection gains the new document on
success, and is untouched on failure) together with the response. -/
def create_order (store : Store) (payload : CreateOrder) :
    Store × Except ApiError OrderResponse :=
  match validateItems payload.items with
  | .error detail => (store, .error (.http 400 detail))
  | .ok _ =>
    let ids := requestIds payload.items
    if ids.length ≠ payload.items.length then
      (store, .error (.http 400 "Invalid product id"))
    else
      let products_map := findProducts store.products ids
      if mapSize products_map ≠ payload.items.length then
        (store, .error (.http 400 "One or more products not found"))
      else
        match orderLoop products_map payload.items [] 0 0 with
        | .error e => (store, .error e)
        | .ok (order_items, sub_total, embroidery_total) =>
          let grand_total := sub_total + embroidery_total
          let order : Order :=
            { customer_name := payload.customer_name
              customer_email := payload.customer_email
              items := order_items
              sub_total := sub_total
              embroidery_total := embroidery_total
              grand_total := grand_total
              notes := payload.notes }
          ({ store with orders := store.orders ++ [order] },
            .ok { status := 201, order := order, grand_total := grand_total })

/-- The last document of the collection carrying a given id: what the
successfully built `products_map` resolves a requested id to. -/
def resolveProduct (store : Store) (product_id : String) :
    Option ProductDoc :=
  mapLookup store.products product_id

instance {e a : Type} [DecidableEq e] [DecidableEq a] : DecidableEq (Except e a) := fun x y =>
  match x, y with
  | .error u, .error v =>
    if h : u = v then .isTrue (by rw [h]) else .isFalse (fun hc => by cases hc; exact h rfl)
  | .error _, .ok _ => .isFalse (fun hc => by cases hc)
  | .ok _, .error _ => .isFalse (fun hc => by cases hc)
  | .ok u, .ok v =>
    if h : u = v then .isTrue (by rw [h]) else .isFalse (fun hc => by cases hc; exact h rfl)

/-- An item passes the first validation loop. -/
def passesItemChecks (it : CreateOrderItem) : Prop :=
  it.color ∈ allowed_colors ∧ 1 ≤ it.quantity

instance (it : CreateOrderItem) : Decidable (passesItemChecks it) := by
  unfold passesItemChecks; infer_instance

lemma validateItems_ok_iff (items : List CreateOrderItem) :
    validateItems items = .ok () ↔ ∀ it ∈ items, passesItemChecks it := by
  induction items with
  | nil => simp [validateItems]
  | cons it rest ih =>
    by_cases hc : it.color ∈ allowed_colors
    · by_cases hq : it.quantity < 1
      · have hp : ¬ passesItemChecks it := by
          simp only [passesItemChecks, not_and]
          intro
          omega
        simp [validateItems, List.elem_eq_mem, hc, hq, hp]
      · have hp : passesItemChecks it := ⟨hc, by omega⟩
        simp [validateItems, List.elem_eq_mem, hc, hq, ih, hp]
    · have hp : ¬ passesItemChecks it := by
        simp [passesItemChecks, hc]
      simp [validateItems, List.elem_eq_mem, hc, hp]

lemma validateItems_skip_passing (pre l : List CreateOrderItem)
    (hpre : ∀ x ∈ pre, passesItemChecks x) :
    validateItems (pre ++ l) = validateItems l := by
  induction pre with
  | nil => simp
  | cons x rest ih =>
    obtain ⟨hc, hq⟩ := hpre x (by simp)
    simp only [List.cons_append, validateItems, List.elem_eq_mem]
    simp [hc, show ¬ x.quantity < 1 by omega]
    exact ih (fun y hy => hpre y (by simp [hy]))

lemma requestIds_eq_map (items : List CreateOrderItem)
    (h : ∀ it ∈ items, ObjectId.is_valid it.product_id) :
    requestIds items = items.map (fun it => it.product_id) := by
  induction items with
  | nil => rfl
  | cons it rest ih =>
    have hv := h it (by simp)
    have ih' := ih (fun x hx => h x (by simp [hx]))
    unfold requestIds at ih' ⊢
    simp only [List.filterMap_cons, hv, if_pos, List.map_cons, ih']

lemma requestIds_length_iff (items : List CreateOrderItem) :
    (requestIds items).length = items.length ↔
      ∀ it ∈ items, ObjectId.is_valid it.product_id := by
  unfold requestIds
  rw [List.filterMap_length_eq_length]
  constructor
  · intro h it hit
    have := h it hit
    by_cases hv : ObjectId.is_valid it.product_id
    · exact hv
    · simp [hv] at this
  · intro h it hit
    simp [h it hit]

lemma mapLookup_eq_some (products_map : List ProductDoc) (k : String)
    (p : ProductDoc) (h : mapLookup products_map k = some p) :
    p ∈ products_map ∧ p.id = k := by
  induction products_map with
  | nil => simp [mapLookup] at h
  | cons d rest ih =>
    simp only [mapLookup] at h
    cases hrest : mapLookup rest k with
    | some r =>
      rw [hrest] at h
      simp only at h
      cases h
      obtain ⟨hm, hid⟩ := ih hrest
      exact ⟨by simp [hm], hid⟩
    | none =>
      rw [hrest] at h
      simp only at h
      by_cases hd : d.id == k
      · simp only [hd, if_pos] at h
        cases h
        exact ⟨by simp, by simpa using hd⟩
      · simp [hd] at h

lemma mapLookup_isSome_of_mem_keys (products_map : List ProductDoc) (k : String)
    (h : k ∈ products_map.map (fun d => d.id)) :
    (mapLookup products_map k).isSome := by
  induction products_map with
  | nil => simp at h
  | cons d rest ih =>
    simp only [mapLookup]
    cases hrest : mapLookup rest k with
    | some r => simp
    | none =>
      simp only [List.map_cons, List.mem_cons] at h
      cases h with
      | inl hdk => simp [hdk]
      | inr hmem =>
        have := ih hmem
        rw [hrest] at this
        simp at this

lemma mapLookup_findProducts (products : List ProductDoc) (ids : List String)
    (k : String) (hk : k ∈ ids) :
    mapLookup (findProducts products ids) k = mapLookup products k := by
  induction products with
  | nil => rfl
  | cons d rest ih =>
    by_cases hd : d.id ∈ ids
    · have hb : ids.contains d.id = true := by
        simpa [List.elem_eq_mem] using hd
      rw [show findProducts (d :: rest) ids = d :: findProducts rest ids by
        simp [findProducts, List.filter_cons, List.elem_eq_mem, hd]]
      simp only [mapLookup]
      rw [ih]
    · have hb : ids.contains d.id = false := by
        simpa [List.elem_eq_mem] using hd
      have hdk : (d.id == k) = false := by
        refine beq_eq_false_iff_ne.mpr ?_
        intro hc
        exact hd (hc ▸ hk)
      rw [show findProducts (d :: rest) ids = findProducts rest ids by
        simp [findProducts, List.filter_cons, List.elem_eq_mem, hd]]
      rw [ih]
      conv_rhs => rw [mapLookup]
      cases mapLookup rest k <;> simp [hdk]

/-- What the totals loop records for one requested item: the resolved
document and the derived unit price, fee and line total. -/
def ItemSpec (products_map : List ProductDoc) (it : CreateOrderItem)
    (oi : OrderItem) : Prop :=
  ∃ p, mapLookup products_map it.product_id = some p ∧
    oi = mkOrderItem it p (p.base_price.getD 0)
      (if hasEmbroidery it.embroidery_text then EMBROIDERY_FEE_PER_ITEM else 0)
      ((p.base_price.getD 0 +
        (if hasEmbroidery it.embroidery_text then EMBROIDERY_FEE_PER_ITEM else 0)) *
        (it.quantity : ℚ))

lemma orderLoop_ok_spec (products_map : List ProductDoc)
    (items : List CreateOrderItem) (acc : List OrderItem) (st et : ℚ)
    (ois : List OrderItem) (S E : ℚ)
    (h : orderLoop products_map items acc st et = .ok (ois, S, E)) :
    ∃ news, ois = acc ++ news ∧
      List.Forall₂ (ItemSpec products_map) items news ∧
      S = st + (news.map (fun oi => oi.unit_price * (oi.quantity : ℚ))).sum ∧
      E = et + (news.map (fun oi => oi.embroidery_fee * (oi.quantity : ℚ))).sum := by
  induction items generalizing acc st et with
  | nil =>
    simp only [orderLoop] at h
    cases h
    exact ⟨[], by simp, List.Forall₂.nil, by simp, by simp⟩
  | cons it rest ih =>
    simp only [orderLoop] at h
    cases hp : mapLookup products_map it.product_id with
    | none => rw [hp] at h; simp at h
    | some p =>
      rw [hp] at h
      simp only at h
      obtain ⟨news, hois, hrel, hS, hE⟩ := ih _ _ _ h
      refine ⟨mkOrderItem it p (p.base_price.getD 0)
        (if hasEmbroidery it.embroidery_text then EMBROIDERY_FEE_PER_ITEM else 0)
        ((p.base_price.getD 0 +
          (if hasEmbroidery it.embroidery_text then EMBROIDERY_FEE_PER_ITEM else 0)) *
          (it.quantity : ℚ)) :: news, ?_, ?_, ?_, ?_⟩
      · rw [hois]; simp
      · exact List.Forall₂.cons ⟨p, hp, rfl⟩ hrel
      · rw [hS]; simp [mkOrderItem]; ring
      · rw [hE]; simp [mkOrderItem]; ring

lemma orderLoop_total (products_map : List ProductDoc)
    (items : List CreateOrderItem) (acc : List OrderItem) (st et : ℚ)
    (h : ∀ it ∈ items, (mapLookup products_map it.product_id).isSome) :
    ∃ ois S E, orderLoop products_map items acc st et = .ok (ois, S, E) := by
  induction items generalizing acc st et with
  | nil => exact ⟨acc, st, et, rfl⟩
  | cons it rest ih =>
    have hs := h it (by simp)
    cases hp : mapLookup products_map it.product_id with
    | none => rw [hp] at hs; simp at hs
    | some p =>
      obtain ⟨ois, S, E, hrec⟩ := ih _ _ _ (fun x hx => h x (by simp [hx]))
      exact ⟨ois, S, E, by simp only [orderLoop, hp]; exact hrec⟩

lemma lookups_succeed (products : List ProductDoc)
    (items : List CreateOrderItem)
    (hval : ∀ it ∈ items, ObjectId.is_valid it.product_id)
    (hsize : mapSize (findProducts products (requestIds items)) = items.length) :
    ∀ it ∈ items,
      (mapLookup (findProducts products (requestIds items)) it.product_id).isSome := by
  intro it hit
  set ids := requestIds items with hids
  set pm := findProducts products ids with hpm
  set keys := pm.map (fun d => d.id) with hkeys
  have hidsmap : ids = items.map (fun x => x.product_id) := requestIds_eq_map items hval
  have hidslen : ids.length = items.length := by rw [hidsmap, List.length_map]
  have hsub : keys ⊆ ids := by
    intro k hk
    rw [hkeys] at hk
    obtain ⟨d, hd, rfl⟩ := List.mem_map.mp hk
    rw [hpm] at hd
    have hmf := List.mem_filter.mp hd
    simpa [List.elem_eq_mem] using hmf.2
  have hsubd : keys.dedup ⊆ ids.dedup := fun k hk =>
    List.mem_dedup.mpr (hsub (List.mem_dedup.mp hk))
  have hsp : List.Subperm keys.dedup ids.dedup := (List.nodup_dedup keys).subperm hsubd
  have hkeyslen : keys.dedup.length = items.length := by
    rw [hkeys]
    exact hsize
  have hlen2 : ids.dedup.length ≤ keys.dedup.length := by
    have h1 : ids.dedup.length ≤ ids.length := (List.dedup_sublist ids).length_le
    omega
  have hperm : List.Perm keys.dedup ids.dedup := hsp.perm_of_length_le hlen2
  have hmemids : it.product_id ∈ ids := by
    rw [hidsmap]
    exact List.mem_map.mpr ⟨it, hit, rfl⟩
  have hmemkeys : it.product_id ∈ keys := by
    have hd1 : it.product_id ∈ ids.dedup := List.mem_dedup.mpr hmemids
    exact List.mem_dedup.mp (hperm.mem_iff.mpr hd1)
  exact mapLookup_isSome_of_mem_keys pm it.product_id hmemkeys

lemma create_order_ok_inv (store : Store) (payload : CreateOrder)
    (store' : Store) (resp : OrderResponse)
    (h : create_order store payload = (store', .ok resp)) :
    validateItems payload.items = .ok () ∧
    (requestIds payload.items).length = payload.items.length ∧
    mapSize (findProducts store.products (requestIds payload.items)) =
      payload.items.length ∧
    ∃ ois st et,
      orderLoop (findProducts store.products (requestIds payload.items))
        payload.items [] 0 0 = .ok (ois, st, et) ∧
      resp.order = { customer_name := payload.customer_name
                     customer_email := payload.customer_email
                     items := ois
                     sub_total := st
                     embroidery_total := et
                     grand_total := st + et
                     notes := payload.notes } ∧
      resp.status = 201 ∧ resp.grand_total = st + et ∧
      store' = { store with orders := store.orders ++ [resp.order] } := by
  simp only [create_order] at h
  split at h
  · simp at h
  · split at h
    · simp at h
    · split at h
      · simp at h
      · split at h
        · simp at h
        · rename_i x1 u hv h1 h2 x2 ois st et hl
          obtain ⟨hst, hresp⟩ := Prod.mk.injEq .. |>.mp h
          injection hresp with hresp
          refine ⟨hv, by omega, by omega, ois, st, et, hl, ?_, ?_, ?_, ?_⟩
          · rw [← hresp]
          · rw [← hresp]
          · rw [← hresp]
          · rw [← hresp, ← hst]

/-- A syntactically valid 24-hex-character product id. -/
def PID1 : String := "507f1f77bcf86cd799439011"

/-- A second valid product id. -/
def PID2 : String := "507f1f77bcf86cd799439012"

/-- A hoodie document priced at 20.0. -/
def hoodieDoc : ProductDoc :=
  { id := PID1, title := some "Classic Hoodie", category := some "hoodie",
    base_price := some 20, colors := ["black"] }

/-- A beanie document whose `base_price` field is absent. -/
def beanieDoc : ProductDoc :=
  { id := PID2, title := some "Beanie", category := some "beanie",
    base_price := none, colors := ["green"] }

/-- A store holding the two sample products and no orders. -/
def sampleStore : Store := { products := [hoodieDoc, beanieDoc], orders := [] }

/-- Two request lines for the same product, quantities 1 and 3, both with
a valid color. -/
def dupPayload : CreateOrder :=
  { customer_name := "Sam", customer_email := "sam@school.edu",
    items := [ { product_id := PID1, color := "black", quantity := 1 },
               { product_id := PID1, color := "black", quantity := 3 } ] }

/-- C1: the claim says a request with two items referencing the same
product (quantities 1 and 3, valid colors, product present) succeeds with
two independent line items.  The code instead rejects it: `ids` keeps the
duplicate, but `products_map` has only one key, so
`len(products_map) != len(payload.items)` raises 400 "One or more
products not found" and nothing is persisted. -/
theorem create_order_duplicate_product_rejected :
    (∀ it ∈ dupPayload.items,
      passesItemChecks it ∧ ObjectId.is_valid it.product_id ∧
        ∃ p ∈ sampleStore.products, p.id = it.product_id) ∧
    create_order sampleStore dupPayload =
      (sampleStore, .error (.http 400 "One or more products not found")) := by
  constructor
  · decide
  · decide

/-- C9: a request with an empty items list is not rejected: every check
passes vacuously and an order with no items and all totals `0.0` is
persisted, answered with status 201 and grand total 0. -/
theorem create_order_empty_items (store : Store) (name email : String)
    (notes : Option String) :
    create_order store
      { customer_name := name, customer_email := email, items := [],
        notes := notes } =
    ({ store with orders := store.orders ++
        [{ customer_name := name, customer_email := email, items := [],
           sub_total := 0, embroidery_total := 0, grand_total := 0,
           notes := notes }] },
      .ok { status := 201,
            order := { customer_name := name, customer_email := email,
                       items := [], sub_total := 0, embroidery_total := 0,
                       grand_total := 0, notes := notes },
            grand_total := 0 }) := by
  simp [create_order, validateItems, requestIds, findProducts, mapSize,
    orderLoop]

/-- C6: whenever `create_order` answers with an error — any of the four
rejections, of whatever kind — the store is returned unchanged: no order
document is persisted. -/
theorem create_order_error_leaves_store_unchanged (store store' : Store)
    (payload : CreateOrder) (e : ApiError)
    (h : create_order store payload = (store', .error e)) :
    store' = store := by
  simp only [create_order] at h
  split at h
  · injection h with h1 h2; exact h1.symm
  · split at h
    · injection h with h1 h2; exact h1.symm
    · split at h
      · injection h with h1 h2; exact h1.symm
      · split at h
        · injection h with h1 h2; exact h1.symm
        · simp at h

/-- A request whose only item has a color outside the palette. -/
def badColorPayload : CreateOrder :=
  { customer_name := "Sam", customer_email := "sam@school.edu",
    items := [ { product_id := PID1, color := "purple", quantity := 1 } ] }

theorem create_order_error_leaves_store_unchanged_witness :
    sampleStore = sampleStore :=
  create_order_error_leaves_store_unchanged sampleStore sampleStore
    badColorPayload (.http 400 "Invalid color: purple") (by decide)

lemma forall₂_mem_right {α β : Type} {R : α → β → Prop} {l₁ : List α}
    {l₂ : List β} (h : List.Forall₂ R l₁ l₂) {b : β} (hb : b ∈ l₂) :
    ∃ a ∈ l₁, R a b := by
  induction h with
  | nil => simp at hb
  | cons hr hrest ih =>
    rcases List.mem_cons.mp hb with rfl | hb'
    · exact ⟨_, by simp, hr⟩
    · obtain ⟨a, ha, hab⟩ := ih hb'
      exact ⟨a, by simp [ha], hab⟩

/-- On every success, the persisted items correspond one-to-one and in
order to the requested items, each built by `mkOrderItem` from the
document the store resolves its id to. -/
lemma create_order_items_spec (store : Store) (payload : CreateOrder)
    (store' : Store) (resp : OrderResponse)
    (h : create_order store payload = (store', .ok resp)) :
    List.Forall₂
      (fun it oi => ∃ p,
        resolveProduct store it.product_id = some p ∧
        oi = mkOrderItem it p (p.base_price.getD 0)
          (if hasEmbroidery it.embroidery_text then EMBROIDERY_FEE_PER_ITEM else 0)
          ((p.base_price.getD 0 +
            (if hasEmbroidery it.embroidery_text then EMBROIDERY_FEE_PER_ITEM
             else 0)) * (it.quantity : ℚ)))
      payload.items resp.order.items := by
  obtain ⟨hv, hlen, hsz, ois, st, et, hl, hord, -, -, -⟩ :=
    create_order_ok_inv store payload store' resp h
  obtain ⟨news, hnews, hrel, -, -⟩ := orderLoop_ok_spec _ _ _ _ _ _ _ _ hl
  simp only [List.nil_append] at hnews
  subst hnews
  have hval : ∀ it ∈ payload.items, ObjectId.is_valid it.product_id :=
    (requestIds_length_iff payload.items).mp hlen
  have hitems : resp.order.items = ois := by rw [hord]
  rw [hitems]
  refine List.Forall₂.imp ?_ hrel
  intro it oi hspec
  obtain ⟨p, hlk, hoi⟩ := hspec
  obtain ⟨hpmem, hpid⟩ := mapLookup_eq_some _ _ _ hlk
  unfold findProducts at hpmem
  have hidmem : it.product_id ∈ requestIds payload.items := by
    rw [← hpid]
    simpa [List.elem_eq_mem] using (List.mem_filter.mp hpmem).2
  refine ⟨p, ?_, hoi⟩
  show mapLookup store.products it.product_id = some p
  rw [← mapLookup_findProducts store.products (requestIds payload.items)
    it.product_id hidmem]
  exact hlk

/-- C2: on every success, `sub_total` is the sum of `unit_price*quantity`
over the persisted items, `embroidery_total` the sum of
`embroidery_fee*quantity`, and `grand_total` their sum. -/
theorem order_totals_are_sums (store store' : Store) (payload : CreateOrder)
    (resp : OrderResponse)
    (h : create_order store payload = (store', .ok resp)) :
    resp.order.sub_total =
      (resp.order.items.map (fun oi => oi.unit_price * (oi.quantity : ℚ))).sum ∧
    resp.order.embroidery_total =
      (resp.order.items.map (fun oi => oi.embroidery_fee * (oi.quantity : ℚ))).sum ∧
    resp.order.grand_total =
      resp.order.sub_total + resp.order.embroidery_total := by
  obtain ⟨-, -, -, ois, st, et, hl, hord, -, -, -⟩ :=
    create_order_ok_inv store payload store' resp h
  obtain ⟨news, hnews, -, hS, hE⟩ := orderLoop_ok_spec _ _ _ _ _ _ _ _ hl
  simp only [List.nil_append] at hnews
  subst hnews
  rw [hord]
  refine ⟨?_, ?_, rfl⟩
  · simpa using hS
  · simpa using hE

/-- The items of the sample request: a hoodie with embroidery text "Sam"
and a beanie with blank embroidery text " ". -/
def wPayload : CreateOrder :=
  { customer_name := "Sam", customer_email := "sam@school.edu",
    items := [ { product_id := PID1, color := "black", quantity := 2,
                 embroidery_text := some "Sam" },
               { product_id := PID2, color := "green", quantity := 1,
                 embroidery_text := some " " } ] }

/-- The line item persisted for the sample hoodie request. -/
def wItem1 : OrderItem :=
  { product_id := PID1, title := "Classic Hoodie", category := "hoodie",
    color := "black", quantity := 2, unit_price := 20,
    embroidery_text := some "Sam", embroidery_fee := 8, line_total := 56 }

/-- The line item persisted for the sample beanie request. -/
def wItem2 : OrderItem :=
  { product_id := PID2, title := "Beanie", category := "beanie",
    color := "green", quantity := 1, unit_price := 0,
    embroidery_text := some " ", embroidery_fee := 0, line_total := 0 }

/-- The order persisted for the sample request. -/
def wOrder : Order :=
  { customer_name := "Sam", customer_email := "sam@school.edu",
    items := [wItem1, wItem2], sub_total := 40, embroidery_total := 16,
    grand_total := 56, notes := none }

/-- The response of the sample request. -/
def wResp : OrderResponse := { status := 201, order := wOrder, grand_total := 56 }

/-- The store after the sample request. -/
def wStore' : Store := { products := sampleStore.products, orders := [wOrder] }

/-- Concrete evaluation of the sample request: it succeeds, persists
`wOrder`, and answers 201 with grand total 56. -/
lemma wRun : create_order sampleStore wPayload = (wStore', .ok wResp) := by
  norm_num +decide [create_order, validateItems, requestIds, findProducts,
    mapSize, mapLookup, orderLoop, mkOrderItem, hasEmbroidery, pyStrip,
    ObjectId.is_valid, isHexChar, EMBROIDERY_FEE_PER_ITEM, allowed_colors,
    sampleStore, wPayload, hoodieDoc, beanieDoc, PID1, PID2, wStore', wResp,
    wOrder, wItem1, wItem2]

theorem order_totals_are_sums_witness :
    wResp.order.sub_total =
      (wResp.order.items.map (fun oi => oi.unit_price * (oi.quantity : ℚ))).sum ∧
    wResp.order.embroidery_total =
      (wResp.order.items.map (fun oi => oi.embroidery_fee * (oi.quantity : ℚ))).sum ∧
    wResp.order.grand_total =
      wResp.order.sub_total + wResp.order.embroidery_total :=
  order_totals_are_sums sampleStore wStore' wPayload wResp wRun

/-- C3: on every success, an item's fee is `EMBROIDERY_FEE_PER_ITEM`
(8.0) when its embroidery text is present and non-blank after trimming,
and `0.0` when the text is absent or blank after trimming. -/
theorem embroidery_fee_cases (store store' : Store) (payload : CreateOrder)
    (resp : OrderResponse)
    (h : create_order store payload = (store', .ok resp)) :
    ∀ oi ∈ resp.order.items,
      ((∃ s, oi.embroidery_text = some s ∧ pyStrip s ≠ "") →
        oi.embroidery_fee = EMBROIDERY_FEE_PER_ITEM) ∧
      ((oi.embroidery_text = none ∨
        ∃ s, oi.embroidery_text = some s ∧ pyStrip s = "") →
        oi.embroidery_fee = 0) := by
  have hrel := create_order_items_spec store payload store' resp h
  intro oi hoi
  obtain ⟨it, -, p, -, hoi_eq⟩ := forall₂_mem_right hrel hoi
  subst hoi_eq
  constructor
  · rintro ⟨s, hs, htrim⟩
    simp only [mkOrderItem] at hs ⊢
    have hsne : s ≠ "" := by
      intro he
      subst he
      exact htrim (by decide)
    rw [hs]
    simp [hasEmbroidery, hsne, htrim]
  · rintro (hnone | ⟨s, hs, htrim⟩)
    · simp only [mkOrderItem] at hnone ⊢
      rw [hnone]
      simp [hasEmbroidery]
    · simp only [mkOrderItem] at hs ⊢
      rw [hs]
      simp [hasEmbroidery, htrim]

theorem embroidery_fee_cases_witness :
    wItem1.embroidery_fee = EMBROIDERY_FEE_PER_ITEM ∧
    wItem2.embroidery_fee = 0 :=
  ⟨(embroidery_fee_cases sampleStore wStore' wPayload wResp wRun
      wItem1 (by decide)).1 ⟨"Sam", rfl, by decide⟩,
   (embroidery_fee_cases sampleStore wStore' wPayload wResp wRun
      wItem2 (by decide)).2 (Or.inr ⟨" ", rfl, by decide⟩)⟩

/-- C4: on every success, each persisted item's `unit_price` is the
resolved document's `base_price` (0 when the field is absent) and its
`line_total` is `(unit_price + embroidery_fee) * quantity`. -/
theorem unit_price_and_line_total (store store' : Store)
    (payload : CreateOrder) (resp : OrderResponse)
    (h : create_order store payload = (store', .ok resp)) :
    ∀ oi ∈ resp.order.items,
      (∃ p, resolveProduct store oi.product_id = some p ∧
        oi.unit_price = p.base_price.getD 0) ∧
      oi.line_total = (oi.unit_price + oi.embroidery_fee) * (oi.quantity : ℚ) := by
  have hrel := create_order_items_spec store payload store' resp h
  intro oi hoi
  obtain ⟨it, -, p, hres, hoi_eq⟩ := forall₂_mem_right hrel hoi
  subst hoi_eq
  refine ⟨⟨p, ?_, ?_⟩, ?_⟩
  · simpa [mkOrderItem] using hres
  · simp [mkOrderItem]
  · simp [mkOrderItem]

theorem unit_price_and_line_total_witness :
    (∃ p, resolveProduct sampleStore wItem1.product_id = some p ∧
      wItem1.unit_price = p.base_price.getD 0) ∧
    wItem1.line_total = (wItem1.unit_price + wItem1.embroidery_fee) *
      (wItem1.quantity : ℚ) :=
  unit_price_and_line_total sampleStore wStore' wPayload wResp wRun
    wItem1 (by decide)

/-- C7: on every success, the persisted order has exactly one item per
requested item, positionally aligned with the request, each copying
`product_id`, `color`, `quantity` and `embroidery_text` from the request
verbatim and snapshotting `title` and `category` from the resolved
document. -/
theorem persisted_items_match_request (store store' : Store)
    (payload : CreateOrder) (resp : OrderResponse)
    (h : create_order store payload = (store', .ok resp)) :
    resp.order.items.length = payload.items.length ∧
    ∀ (i : Nat) (h1 : i < payload.items.length)
      (h2 : i < resp.order.items.length),
      (resp.order.items.get ⟨i, h2⟩).product_id =
        (payload.items.get ⟨i, h1⟩).product_id ∧
      (resp.order.items.get ⟨i, h2⟩).color =
        (payload.items.get ⟨i, h1⟩).color ∧
      (resp.order.items.get ⟨i, h2⟩).quantity =
        (payload.items.get ⟨i, h1⟩).quantity ∧
      (resp.order.items.get ⟨i, h2⟩).embroidery_text =
        (payload.items.get ⟨i, h1⟩).embroidery_text ∧
      ∃ p, resolveProduct store (payload.items.get ⟨i, h1⟩).product_id =
          some p ∧
        (resp.order.items.get ⟨i, h2⟩).title = p.title.getD "" ∧
        (resp.order.items.get ⟨i, h2⟩).category = p.category.getD "" := by
  have hrel := create_order_items_spec store payload store' resp h
  refine ⟨hrel.length_eq.symm, ?_⟩
  intro i h1 h2
  obtain ⟨p, hres, hoi⟩ := (List.forall₂_iff_get.mp hrel).2 i h1 h2
  rw [hoi]
  exact ⟨rfl, rfl, rfl, rfl, p, hres, rfl, rfl⟩

theorem persisted_items_match_request_witness :
    wResp.order.items.length = wPayload.items.length ∧
    (wResp.order.items.get ⟨0, by decide⟩).product_id =
      (wPayload.items.get ⟨0, by decide⟩).product_id :=
  ⟨(persisted_items_match_request sampleStore wStore' wPayload wResp wRun).1,
   ((persisted_items_match_request sampleStore wStore' wPayload wResp
      wRun).2 0 (by decide) (by decide)).1⟩

/-- C10: on every success, an item whose resolved document has no
`base_price` field gets `unit_price = 0`, so its line total is just the
embroidery fee times the quantity; the absent field causes no failure
(the sample run `wRun` with such a product succeeds). -/
theorem missing_base_price_defaults_to_zero (store store' : Store)
    (payload : CreateOrder) (resp : OrderResponse)
    (h : create_order store payload = (store', .ok resp)) :
    ∀ oi ∈ resp.order.items, ∀ p,
      resolveProduct store oi.product_id = some p → p.base_price = none →
      oi.unit_price = 0 ∧
      oi.line_total = oi.embroidery_fee * (oi.quantity : ℚ) := by
  have hrel := create_order_items_spec store payload store' resp h
  intro oi hoi p hres hnone
  obtain ⟨it, -, q, hresq, hoi_eq⟩ := forall₂_mem_right hrel hoi
  subst hoi_eq
  simp only [mkOrderItem] at hres
  rw [hresq] at hres
  have hpq : q = p := by injection hres
  subst hpq
  constructor
  · simp [mkOrderItem, hnone]
  · simp [mkOrderItem, hnone]

theorem missing_base_price_defaults_to_zero_witness :
    wItem2.unit_price = 0 ∧
    wItem2.line_total = wItem2.embroidery_fee * (wItem2.quantity : ℚ) :=
  missing_base_price_defaults_to_zero sampleStore wStore' wPayload wResp
    wRun wItem2 (by decide) beanieDoc (by decide) rfl

/-- C5: the four rejections of `create_order`, each with its message, in
the order the code checks them, and the success response.  The first two
clauses locate the first item failing the per-item loop (color checked
before quantity within an item); the third fires when some id is not a
valid store identifier; the fourth when the resolved products do not
cover the requested items; when every check passes the request succeeds
with 201 and the new order's grand total. -/
theorem create_order_rejections (store : Store) (payload : CreateOrder) :
    (∀ pre it rest, payload.items = pre ++ it :: rest →
      (∀ x ∈ pre, passesItemChecks x) → it.color ∉ allowed_colors →
      create_order store payload =
        (store, .error (.http 400 ("Invalid color: " ++ it.color)))) ∧
    (∀ pre it rest, payload.items = pre ++ it :: rest →
      (∀ x ∈ pre, passesItemChecks x) → it.color ∈ allowed_colors →
      it.quantity < 1 →
      create_order store payload =
        (store, .error (.http 400 "Quantity must be >= 1"))) ∧
    ((∀ x ∈ payload.items, passesItemChecks x) →
      (∃ it ∈ payload.items, ¬ ObjectId.is_valid it.product_id) →
      create_order store payload =
        (store, .error (.http 400 "Invalid product id"))) ∧
    ((∀ x ∈ payload.items, passesItemChecks x) →
      (∀ it ∈ payload.items, ObjectId.is_valid it.product_id) →
      mapSize (findProducts store.products (requestIds payload.items)) ≠
        payload.items.length →
      create_order store payload =
        (store, .error (.http 400 "One or more products not found"))) ∧
    ((∀ x ∈ payload.items, passesItemChecks x) →
      (∀ it ∈ payload.items, ObjectId.is_valid it.product_id) →
      mapSize (findProducts store.products (requestIds payload.items)) =
        payload.items.length →
      ∃ order : Order, create_order store payload =
        ({ store with orders := store.orders ++ [order] },
          .ok { status := 201, order := order,
                grand_total := order.grand_total })) := by
  refine ⟨?_, ?_, ?_, ?_, ?_⟩
  · intro pre it rest hsplit hpre hcolor
    have hvi : validateItems payload.items =
        .error ("Invalid color: " ++ it.color) := by
      rw [hsplit, validateItems_skip_passing pre _ hpre]
      simp [validateItems, List.elem_eq_mem, hcolor]
    simp only [create_order, hvi]
  · intro pre it rest hsplit hpre hc hq
    have hvi : validateItems payload.items =
        .error "Quantity must be >= 1" := by
      rw [hsplit, validateItems_skip_passing pre _ hpre]
      simp [validateItems, List.elem_eq_mem, hc, hq]
    simp only [create_order, hvi]
  · intro hall hbad
    have hv : validateItems payload.items = .ok () :=
      (validateItems_ok_iff _).mpr hall
    have hlen : (requestIds payload.items).length ≠ payload.items.length := by
      intro he
      obtain ⟨it, hit, hnv⟩ := hbad
      exact hnv ((requestIds_length_iff _).mp he it hit)
    simp only [create_order, hv]
    rw [if_pos hlen]
  · intro hall hval hsz
    have hv : validateItems payload.items = .ok () :=
      (validateItems_ok_iff _).mpr hall
    have hleneq : (requestIds payload.items).length = payload.items.length :=
      (requestIds_length_iff _).mpr hval
    simp only [create_order, hv]
    rw [if_neg (fun hx => hx hleneq), if_pos hsz]
  · intro hall hval hsz
    have hv : validateItems payload.items = .ok () :=
      (validateItems_ok_iff _).mpr hall
    have hleneq : (requestIds payload.items).length = payload.items.length :=
      (requestIds_length_iff _).mpr hval
    obtain ⟨ois, st, et, hl⟩ := orderLoop_total _ payload.items [] 0 0
      (lookups_succeed store.products payload.items hval hsz)
    refine ⟨{ customer_name := payload.customer_name
              customer_email := payload.customer_email
              items := ois
              sub_total := st
              embroidery_total := et
              grand_total := st + et
              notes := payload.notes }, ?_⟩
    simp only [create_order, hv]
    rw [if_neg (fun hx => hx hleneq), if_neg (fun hx => hx hsz), hl]

theorem create_order_rejections_witness :
    create_order sampleStore badColorPayload =
      (sampleStore, .error (.http 400 "Invalid color: purple")) ∧
    ∃ order : Order, create_order sampleStore wPayload =
      ({ sampleStore with orders := sampleStore.orders ++ [order] },
        .ok { status := 201, order := order,
              grand_total := order.grand_total }) :=
  ⟨(create_order_rejections sampleStore badColorPayload).1 []
      { product_id := PID1, color := "purple", quantity := 1 } [] rfl
      (by simp) (by decide),
   (create_order_rejections sampleStore wPayload).2.2.2.2 (by decide)
      (by decide) (by decide)⟩

/-- Two product documents that agree on every field `create_order` can
read except (possibly) their `colors` list. -/
def EqExceptColors (d e : ProductDoc) : Prop :=
  d.id = e.id ∧ d.title = e.title ∧ d.category = e.category ∧
  d.description = e.description ∧ d.base_price = e.base_price ∧
  d.images = e.images ∧ d.in_stock = e.in_stock

/-- Lift a relation to `Option`. -/
def OptRel {α β : Type} (R : α → β → Prop) : Option α → Option β → Prop
  | none, none => True
  | some a, some b => R a b
  | _, _ => False

lemma findProducts_congr (ps1 ps2 : List ProductDoc) (ids : List String)
    (h : List.Forall₂ EqExceptColors ps1 ps2) :
    List.Forall₂ EqExceptColors (findProducts ps1 ids)
      (findProducts ps2 ids) := by
  induction h with
  | nil => exact .nil
  | @cons d e l1 l2 hr hrest ih =>
    unfold findProducts
    simp only [List.filter_cons]
    rw [hr.1]
    by_cases hc : (ids.contains e.id) = true
    · rw [if_pos hc, if_pos hc]
      exact .cons hr ih
    · rw [if_neg hc, if_neg hc]
      exact ih

lemma map_id_congr (m1 m2 : List ProductDoc)
    (h : List.Forall₂ EqExceptColors m1 m2) :
    m1.map (fun d => d.id) = m2.map (fun d => d.id) := by
  induction h with
  | nil => rfl
  | cons hr hrest ih => simp [ih, hr.1]

lemma mapLookup_congr (m1 m2 : List ProductDoc)
    (h : List.Forall₂ EqExceptColors m1 m2) (k : String) :
    OptRel EqExceptColors (mapLookup m1 k) (mapLookup m2 k) := by
  induction h with
  | nil => exact True.intro
  | @cons d e l1 l2 hr hrest ih =>
    simp only [mapLookup]
    revert ih
    cases h1 : mapLookup l1 k with
    | some r1 =>
      cases h2 : mapLookup l2 k with
      | some r2 => intro ih; exact ih
      | none => intro ih; exact (ih : False).elim
    | none =>
      cases h2 : mapLookup l2 k with
      | some r2 => intro ih; exact (ih : False).elim
      | none =>
        intro _
        show OptRel EqExceptColors
          (if (d.id == k) = true then some d else none)
          (if (e.id == k) = true then some e else none)
        rw [hr.1]
        by_cases hk : (e.id == k) = true
        · rw [if_pos hk, if_pos hk]
          exact hr
        · rw [if_neg hk, if_neg hk]
          exact True.intro

lemma orderLoop_congr (m1 m2 : List ProductDoc)
    (h : List.Forall₂ EqExceptColors m1 m2) (items : List CreateOrderItem)
    (acc : List OrderItem) (st et : ℚ) :
    orderLoop m1 items acc st et = orderLoop m2 items acc st et := by
  induction items generalizing acc st et with
  | nil => rfl
  | cons it rest ih =>
    have hlk := mapLookup_congr m1 m2 h it.product_id
    simp only [orderLoop]
    cases h1 : mapLookup m1 it.product_id with
    | none =>
      cases h2 : mapLookup m2 it.product_id with
      | none => rfl
      | some q => rw [h1, h2] at hlk; exact (hlk : False).elim
    | some p =>
      cases h2 : mapLookup m2 it.product_id with
      | none => rw [h1, h2] at hlk; exact (hlk : False).elim
      | some q =>
        rw [h1, h2] at hlk
        obtain ⟨hid, htitle, hcat, hdesc, hbp, him, hin⟩ :=
          (hlk : EqExceptColors p q)
        have hmk : ∀ u f lt, mkOrderItem it p u f lt = mkOrderItem it q u f lt := by
          intro u f lt
          simp [mkOrderItem, htitle, hcat]
        simp only [hmk, hbp]
        exact ih _ _ _

/-- C8: the outcome of `create_order` — response and persisted orders —
is unchanged if the stored products' `colors` lists are replaced
arbitrarily: the validator only consults the hardcoded global palette. -/
theorem create_order_ignores_product_colors (s1 s2 : Store)
    (payload : CreateOrder)
    (hp : List.Forall₂ EqExceptColors s1.products s2.products)
    (ho : s1.orders = s2.orders) :
    (create_order s1 payload).2 = (create_order s2 payload).2 ∧
    (create_order s1 payload).1.orders =
      (create_order s2 payload).1.orders := by
  have hpm := findProducts_congr s1.products s2.products
    (requestIds payload.items) hp
  have hsz : mapSize (findProducts s1.products (requestIds payload.items)) =
      mapSize (findProducts s2.products (requestIds payload.items)) := by
    unfold mapSize
    rw [map_id_congr _ _ hpm]
  have hloop := orderLoop_congr _ _ hpm payload.items [] 0 0
  simp only [create_order]
  cases hv : validateItems payload.items with
  | error d => exact ⟨rfl, ho⟩
  | ok u =>
    by_cases h1 : (requestIds payload.items).length ≠ payload.items.length
    · rw [if_pos h1, if_pos h1]
      exact ⟨rfl, ho⟩
    · rw [if_neg h1, if_neg h1, hsz]
      by_cases h2 : mapSize (findProducts s2.products
          (requestIds payload.items)) ≠ payload.items.length
      · rw [if_pos h2, if_pos h2]
        exact ⟨rfl, ho⟩
      · rw [if_neg h2, if_neg h2, hloop]
        cases hl : orderLoop (findProducts s2.products
            (requestIds payload.items)) payload.items [] 0 0 with
        | error e => exact ⟨rfl, ho⟩
        | ok trip =>
          obtain ⟨ois, st, et⟩ := trip
          exact ⟨rfl, by simp [ho]⟩

/-- The sample hoodie with its colors list emptied. -/
def hoodieDoc2 : ProductDoc := { hoodieDoc with colors := [] }

/-- The sample beanie with its colors list replaced. -/
def beanieDoc2 : ProductDoc := { beanieDoc with colors := ["purple"] }

/-- The sample store with both colors lists altered. -/
def sampleStore2 : Store := { products := [hoodieDoc2, beanieDoc2], orders := [] }

theorem create_order_ignores_product_colors_witness :
    (create_order sampleStore wPayload).2 =
      (create_order sampleStore2 wPayload).2 ∧
    (create_order sampleStore wPayload).1.orders =
      (create_order sampleStore2 wPayload).1.orders :=
  create_order_ignores_product_colors sampleStore sampleStore2 wPayload
    (List.Forall₂.cons ⟨rfl, rfl, rfl, rfl, rfl, rfl, rfl⟩
      (List.Forall₂.cons ⟨rfl, rfl, rfl, rfl, rfl, rfl, rfl⟩
        List.Forall₂.nil))
    rfl
